import Mathlib

/-!
Verification of `nequip/model/saved_models/load_utils.py`.

The module resolves a model reference (local path, `http(s)://` URL, or
`nequip.net:` registry identifier) to a local file, then dispatches to one of
two loaders (checkpoint-based or package-based) and selects a sub-model.

The Python module performs I/O, so we embed it as a pure program over an
explicit `World` (initial filesystem, HTTP responses, registry client,
temp-file naming, and the external loader collaborators), together with an
event trace that records every observable effect: temp-file creation and
deletion, HTTP requests, chunk writes, log lines, the persistent-only
modifier scope, and calls into the deserialization collaborators.
-/

namespace NequIPLoad

/-- Python `str.startswith`: character-level prefix test. -/
def strStartsWith (s p : String) : Bool := p.data.isPrefixOf s.data

/-- Python `str.endswith`: character-level suffix test. -/
def strEndsWith (s p : String) : Bool := p.data.isSuffixOf s.data

/-- Python slicing `s[n:]` by characters. -/
def strDrop (s : String) (n : Nat) : String := String.mk (s.data.drop n)

/-- A chunk of bytes produced by `response.iter_content`. -/
abbrev Chunk := List Nat

/-- An HTTP response as observed by `_download_to_file` (a `requests` response
with `stream=True`): status code, optional `Content-Length` header, and the
body as the chunk sequence produced by `iter_content(chunk_size=65536)`; the
byte content of the body is the concatenation of the chunks.  The header is only
used for the progress display, which has no effect we track. -/
structure HttpResponse where
  status : Nat
  contentLength : Option Nat
  chunks : List Chunk

/-- The `artifact` part of the download info from the registry client. -/
structure Artifact where
  download_url : String
  host_name : String

/-- Download info returned by `NequIPNetAPIClient.get_model_download_info`. -/
structure ModelInfo where
  artifact : Artifact
  newer_version_id : Option String

/-- Python exceptions raised (or raisable) in this module.  In the builtin
exception hierarchy of Python, `FileNotFoundError` is a subclass of `OSError`;
`ValueError` — the class `load_saved_model` actually raises for a missing
file — is not in the `OSError`/`FileNotFoundError` hierarchy, and neither is
`requests.HTTPError`. -/
inductive PyError where
  | valueError (msg : String)
  | httpError (status : Nat) (url : String)
  | fileNotFoundError (msg : String)
  | registryError (msg : String)
deriving Repr, DecidableEq

/-- Python `isinstance(e, FileNotFoundError)` for the exceptions above: only
a `FileNotFoundError` itself is of that class. -/
def PyError.isFileNotFoundClass : PyError → Bool
  | .fileNotFoundError _ => true
  | _ => false

/-- Observable effects of the module, in program order. -/
inductive Event where
  | logInfo (msg : String)
  | tmpCreate (name : String)
  | tmpDelete (name : String)
  | registryLookup (model_id : String)
  | httpGet (url : String)
  | writeChunk (name : String) (bytes : Nat)
  | enterPersistentOnly
  | exitPersistentOnly
  | deserializeCheckpoint (path : String)
  | deserializePackage (path : String)
  | dataFromCheckpoint (path : String)
  | dataFromPackage (path : String)
deriving Repr, DecidableEq

/-- The environment an invocation runs in: the initial filesystem, the network
(HTTP responses and the registry client), the temp-file name generator
(`tempfile.NamedTemporaryFile(suffix=s)` yields a fresh name ending in `s`),
and the external loader collaborators.  `ModelFromCheckpoint`/
`ModelFromPackage` take the path and `compile_mode` and return the loaded
`ModuleDict`, modelled as a key-indexed map into models. -/
structure World (M D : Type) where
  fsExists : String → Bool
  http : String → HttpResponse
  registry : String → Except PyError ModelInfo
  tmpBase : String
  ModelFromCheckpoint : String → String → String → M
  ModelFromPackage : String → String → String → M
  data_dict_from_checkpoint : String → D
  data_dict_from_package : String → D

/-- `response.raise_for_status()` of the `requests` library: raises
`requests.HTTPError` exactly for client-error (4xx) and server-error (5xx)
status codes, i.e. for `400 ≤ status < 600`, and returns normally for every
other status. -/
def raise_for_status (r : HttpResponse) (url : String) : Except PyError Unit :=
  if 400 ≤ r.status ∧ r.status < 600 then .error (.httpError r.status url) else .ok ()

/-- `_download_to_file(url, tmpfile)`: issues `requests.get(url, stream=True)`,
calls `raise_for_status`, then writes every non-empty chunk of
`iter_content(chunk_size=65536)` to the temp file (`if chunk:` skips empty
keep-alive chunks).  Returns the events and, on success, the total number of
bytes written. -/
def _download_to_file {M D : Type} (w : World M D) (url : String) (tmpname : String) :
    List Event × Except PyError Nat :=
  let response := w.http url
  match raise_for_status response url with
  | .error e => ([Event.httpGet url], .error e)
  | .ok _ =>
    let writes := response.chunks.filter fun c => !c.isEmpty
    (Event.httpGet url :: writes.map fun c => Event.writeChunk tmpname c.length,
      .ok (writes.map List.length).sum)

/-- The informational log line emitted when the registry reports a newer
version of the requested model. -/
def newerNote (model_id : String) (model_info : ModelInfo) : List Event :=
  match model_info.newer_version_id with
  | some v => [Event.logInfo ("Model " ++ model_id ++ " has a newer version available: " ++ v)]
  | none => []

/-- The outcome of the `_get_model_file_path` context manager as seen by its
caller: `preEvents` are the effects up to (and including) the `yield`,
`result` is the yielded path or the exception propagated out of the setup,
`postEvents` are the effects performed when the scope exits after a
successful `yield` (temp-file deletion), and `fs` is the filesystem during
the body (the created temp file exists there).  When setup fails, the
`with tempfile...` block inside the generator already deletes the temp file,
so the deletion is part of `preEvents` and `postEvents` is empty. -/
structure Resolution where
  preEvents : List Event
  result : Except PyError String
  postEvents : List Event
  fs : String → Bool

/-- `_get_model_file_path(input_path)`: classifies the input by prefix
(`nequip.net:` registry id, `http://`/`https://` URL, otherwise local path);
network-sourced inputs acquire a `NamedTemporaryFile(suffix=".nequip.zip")`
before any other work, download into it, and yield its path; local paths are
yielded unchanged with no temp file and no network traffic. -/
def _get_model_file_path {M D : Type} (w : World M D) (input_path : String) : Resolution :=
  let input_str := input_path
  let is_nequip_net_download : Bool := strStartsWith input_str "nequip.net:"
  let is_url_download : Bool :=
    strStartsWith input_str "http://" || strStartsWith input_str "https://"
  if is_nequip_net_download then
    let tmpname := w.tmpBase ++ ".nequip.zip"
    let model_id := strDrop input_str "nequip.net:".length
    let ev0 := [Event.tmpCreate tmpname,
      Event.logInfo ("Fetching " ++ model_id ++ " from nequip.net...")]
    match w.registry model_id with
    | .error e =>
      ⟨ev0 ++ [Event.registryLookup model_id, Event.tmpDelete tmpname], .error e,
        [], w.fsExists⟩
    | .ok model_info =>
      let dl := _download_to_file w model_info.artifact.download_url tmpname
      match dl.2 with
      | .error e =>
        ⟨ev0 ++ [Event.registryLookup model_id] ++ newerNote model_id model_info ++ dl.1
            ++ [Event.tmpDelete tmpname], .error e, [], w.fsExists⟩
      | .ok _ =>
        ⟨ev0 ++ [Event.registryLookup model_id] ++ newerNote model_id model_info ++ dl.1
            ++ [Event.logInfo "Download complete, loading model..."],
          .ok tmpname, [Event.tmpDelete tmpname],
          fun p => p == tmpname || w.fsExists p⟩
  else if is_url_download then
    let tmpname := w.tmpBase ++ ".nequip.zip"
    let ev0 := [Event.tmpCreate tmpname,
      Event.logInfo ("Downloading model from " ++ input_str ++ "...")]
    let dl := _download_to_file w input_str tmpname
    match dl.2 with
    | .error e => ⟨ev0 ++ dl.1 ++ [Event.tmpDelete tmpname], .error e, [], w.fsExists⟩
    | .ok _ =>
      ⟨ev0 ++ dl.1 ++ [Event.logInfo "Download complete, loading model..."],
        .ok tmpname, [Event.tmpDelete tmpname],
        fun p => p == tmpname || w.fsExists p⟩
  else
    ⟨[Event.logInfo ("Loading model from " ++ input_path ++ " ...")], .ok input_path,
      [], w.fsExists⟩

/-- Modelled from the spec: `_EAGER_MODEL_KEY` (the default `compile_mode`)
lives in `nequip.model.utils`, which is not part of this fragment; only its
role as the default argument matters here. -/
def _EAGER_MODEL_KEY : String := "eager"

/-- Modelled from the spec: `_SOLE_MODEL_KEY`, the well-known single-model key
of `nequip.train.lightning` (not part of this fragment), the default
`model_key`. -/
def _SOLE_MODEL_KEY : String := "sole_model"

/-- What `load_saved_model` returns: the model alone, or the pair of the model
and the companion data dict when `return_data_dict` is set. -/
inductive LoadResult (M D : Type) where
  | model (m : M)
  | modelAndData (m : M) (d : D)
deriving Repr, DecidableEq

/-- `load_saved_model(input_path, compile_mode, model_key, return_data_dict)`:
resolves the input, raises `ValueError` if the resolved file does not exist,
dispatches on the `.nequip.zip` suffix to `ModelFromPackage` (the checkpoint
loader otherwise, wrapped in the `only_apply_persistent_modifiers` scope),
indexes the loaded `ModuleDict` with `model_key`, and optionally re-reads the
same file through the format-matching data-dict routine.  The trace includes
the cleanup events of the resolution scope, which run on every exit path. -/
def load_saved_model {M D : Type} (w : World M D) (input_path : String)
    (compile_mode : String) (model_key : String) (return_data_dict : Bool) :
    List Event × Except PyError (LoadResult M D) :=
  let r := _get_model_file_path w input_path
  match r.result with
  | .error e => (r.preEvents ++ r.postEvents, .error e)
  | .ok actual_input_path =>
    if !(r.fs actual_input_path) then
      (r.preEvents ++ r.postEvents,
        .error (.valueError ("Model file does not exist: " ++ input_path
          ++ " (resolved to: " ++ actual_input_path ++ ")")))
    else
      let use_ckpt := !(strEndsWith actual_input_path ".nequip.zip")
      let loadEvs : List Event :=
        if use_ckpt then
          [Event.enterPersistentOnly, Event.deserializeCheckpoint actual_input_path,
            Event.exitPersistentOnly]
        else [Event.deserializePackage actual_input_path]
      let md : String → M :=
        if use_ckpt then w.ModelFromCheckpoint actual_input_path compile_mode
        else w.ModelFromPackage actual_input_path compile_mode
      let model := md model_key
      if return_data_dict then
        let dEvs : List Event :=
          if use_ckpt then [Event.dataFromCheckpoint actual_input_path]
          else [Event.dataFromPackage actual_input_path]
        let data : D :=
          if use_ckpt then w.data_dict_from_checkpoint actual_input_path
          else w.data_dict_from_package actual_input_path
        (r.preEvents ++ loadEvs ++ dEvs ++ r.postEvents, .ok (.modelAndData model data))
      else
        (r.preEvents ++ loadEvs ++ r.postEvents, .ok (.model model))

/-! ## Trace analysis

Decidable observers over event traces, used to state the temporal and
frame properties. -/

/-- Events produced by the body of `load_saved_model` (deserialization calls,
data-dict extraction, and the persistent-only modifier scope), as opposed to
events produced by resolution. -/
def isBodyEvent : Event → Bool
  | .enterPersistentOnly => true
  | .exitPersistentOnly => true
  | .deserializeCheckpoint _ => true
  | .deserializePackage _ => true
  | .dataFromCheckpoint _ => true
  | .dataFromPackage _ => true
  | _ => false

/-- Events that create, destroy or touch a resource: temp files and the
network (registry lookups, HTTP requests, chunk writes). -/
def isResourceEvent : Event → Bool
  | .tmpCreate _ => true
  | .tmpDelete _ => true
  | .registryLookup _ => true
  | .httpGet _ => true
  | .writeChunk _ _ => true
  | _ => false

/-- Fold step tracking which temp files currently exist on disk. -/
def aliveStep (acc : List String) : Event → List String
  | .tmpCreate n => n :: acc
  | .tmpDelete n => acc.erase n
  | _ => acc

/-- The temp files still existing on disk after all events of a trace. -/
def aliveTmpsAfter (evs : List Event) : List String := evs.foldl aliveStep []

/-- Fold step with state (a temp file has been created so far, all checks
passed): every network operation must come after a temp-file acquisition. -/
def dlAcqStep : Bool × Bool → Event → Bool × Bool
  | (_, ok), .tmpCreate _ => (true, ok)
  | (c, ok), .httpGet _ => (c, ok && c)
  | (c, ok), .writeChunk _ _ => (c, ok && c)
  | s, _ => s

/-- Whether every HTTP request and chunk write of the trace happens after a
temp file has been acquired. -/
def downloadsAfterAcquire (evs : List Event) : Bool :=
  (evs.foldl dlAcqStep (false, true)).2

/-- Fold step with state (current persistent-only scope depth, all checks
passed): a checkpoint deserialization must happen inside the scope, a package
deserialization outside it. -/
def scopeStep : Nat × Bool → Event → Nat × Bool
  | (d, ok), .enterPersistentOnly => (d + 1, ok)
  | (d, ok), .exitPersistentOnly => (d - 1, ok)
  | (d, ok), .deserializeCheckpoint _ => (d, ok && decide (0 < d))
  | (d, ok), .deserializePackage _ => (d, ok && decide (d = 0))
  | s, _ => s

/-- Whether, walking the trace, every checkpoint deserialization occurs at
positive persistent-only depth and every package deserialization at depth
zero. -/
def modifierScopesOK (evs : List Event) : Bool := (evs.foldl scopeStep (0, true)).2

/-- Recognizes registry-lookup events. -/
def isLookup : Event → Bool
  | .registryLookup _ => true
  | _ => false

/-- Recognizes HTTP-request events. -/
def isHttpGet : Event → Bool
  | .httpGet _ => true
  | _ => false

/-- Number of registry metadata lookups in a trace. -/
def countLookups (evs : List Event) : Nat := (evs.filter isLookup).length

/-- Number of HTTP requests in a trace. -/
def countHttpGets (evs : List Event) : Nat := (evs.filter isHttpGet).length

/-- Fold step with state (a registry lookup has happened, all checks passed):
every HTTP request must come after a registry lookup. -/
def lookupBeforeStep : Bool × Bool → Event → Bool × Bool
  | (_, ok), .registryLookup _ => (true, ok)
  | (seen, ok), .httpGet _ => (seen, ok && seen)
  | s, _ => s

/-- Whether every HTTP request of the trace is strictly preceded by a registry
lookup. -/
def lookupBeforeDownload (evs : List Event) : Bool :=
  (evs.foldl lookupBeforeStep (false, true)).2

/-- The byte count of a write event targeting the named file. -/
def chunkBytes (t : String) : Event → Option Nat
  | .writeChunk n k => if n = t then some k else none
  | _ => none

/-- Total number of bytes written to the named file over a trace. -/
def bytesWritten (t : String) (evs : List Event) : Nat :=
  (evs.filterMap (chunkBytes t)).sum

/-! ## Concrete environments

Small executable worlds used to evaluate the development at concrete
inputs. -/

/-- A world with two local model files, a well-behaved HTTP server, and a
registry entry that advertises a newer version. -/
def w1 : World Nat Nat where
  fsExists := fun p => p == "model.pt" || p == "model.nequip.zip"
  http := fun _ => ⟨200, some 5, [[10, 20, 30], [], [40, 50]]⟩
  registry := fun _ => .ok ⟨⟨"https://host.example/artifact", "host.example"⟩, some "grp/m:2"⟩
  tmpBase := "tmp0"
  ModelFromCheckpoint := fun _ _ _ => 1
  ModelFromPackage := fun _ _ _ => 2
  data_dict_from_checkpoint := fun _ => 11
  data_dict_from_package := fun _ => 22

/-- A world whose filesystem is empty. -/
def wMissing : World Nat Nat where
  fsExists := fun _ => false
  http := fun _ => ⟨200, none, []⟩
  registry := fun _ => .error (.registryError "unavailable")
  tmpBase := "tmp0"
  ModelFromCheckpoint := fun _ _ _ => 1
  ModelFromPackage := fun _ _ _ => 2
  data_dict_from_checkpoint := fun _ => 11
  data_dict_from_package := fun _ => 22

/-- A world whose HTTP server answers every request with `304 Not Modified`
and an empty body. -/
def w304 : World Nat Nat where
  fsExists := fun _ => false
  http := fun _ => ⟨304, none, []⟩
  registry := fun _ => .error (.registryError "unavailable")
  tmpBase := "tmp0"
  ModelFromCheckpoint := fun _ _ _ => 1
  ModelFromPackage := fun _ _ _ => 2
  data_dict_from_checkpoint := fun _ => 11
  data_dict_from_package := fun _ => 22

/-- A world whose HTTP server rejects every request with `404`. -/
def w404 : World Nat Nat where
  fsExists := fun _ => false
  http := fun _ => ⟨404, none, [[1, 2]]⟩
  registry := fun _ => .error (.registryError "unavailable")
  tmpBase := "tmp0"
  ModelFromCheckpoint := fun _ _ _ => 1
  ModelFromPackage := fun _ _ _ => 2
  data_dict_from_checkpoint := fun _ => 11
  data_dict_from_package := fun _ => 22


/-- A fold over events whose every step fixes the state leaves it unchanged. -/
theorem foldl_fixed {σ : Type} {f : σ → Event → σ} {s : σ} :
    ∀ {l : List Event}, (∀ e ∈ l, f s e = s) → List.foldl f s l = s
  | [], _ => rfl
  | e :: l, h => by
    rw [List.foldl_cons, h e (List.mem_cons_self e l)]
    exact foldl_fixed fun x hx => h x (List.mem_cons_of_mem e hx)

/-- Appending a string that ends the result: Python `(a + b).endswith(b)`. -/
theorem strEndsWith_append (a b : String) : strEndsWith (a ++ b) b = true := by
  simp only [strEndsWith, String.data_append, List.isSuffixOf_iff_suffix]
  exact List.suffix_append _ _

/-- `_download_to_file` on a 4xx/5xx response: one request, no writes, a
`requests.HTTPError`. -/
theorem download_err {M D : Type} (w : World M D) (url t : String)
    (h : 400 ≤ (w.http url).status ∧ (w.http url).status < 600) :
    _download_to_file w url t =
      ([Event.httpGet url], .error (.httpError (w.http url).status url)) := by
  simp [_download_to_file, raise_for_status, h]

/-- `_download_to_file` on any other status: one request followed by one write
per non-empty chunk, returning the byte total. -/
theorem download_ok {M D : Type} (w : World M D) (url t : String)
    (h : ¬(400 ≤ (w.http url).status ∧ (w.http url).status < 600)) :
    _download_to_file w url t =
      (Event.httpGet url ::
          ((w.http url).chunks.filter fun c => !c.isEmpty).map
            (fun c => Event.writeChunk t c.length),
        .ok ((((w.http url).chunks.filter fun c => !c.isEmpty)).map List.length).sum) := by
  simp [_download_to_file, raise_for_status, h]

/-- Every download event is the request itself or a chunk write to the temp
file. -/
theorem mem_download_events {M D : Type} (w : World M D) (url t : String) (e : Event)
    (he : e ∈ (_download_to_file w url t).1) :
    e = Event.httpGet url ∨ ∃ n, e = Event.writeChunk t n := by
  by_cases h : 400 ≤ (w.http url).status ∧ (w.http url).status < 600
  · rw [download_err w url t h] at he
    simp at he
    exact .inl he
  · rw [download_ok w url t h] at he
    simp [List.mem_map] at he
    rcases he with he | ⟨c, _, hc⟩
    · exact .inl he
    · exact .inr ⟨c.length, hc.symm⟩

/-- The newer-version notice is at most one log line. -/
theorem mem_newerNote (model_id : String) (info : ModelInfo) (e : Event)
    (he : e ∈ newerNote model_id info) : ∃ m, e = Event.logInfo m := by
  unfold newerNote at he
  cases h : info.newer_version_id with
  | none => rw [h] at he; simp at he
  | some v => rw [h] at he; simp at he; exact ⟨_, he⟩

/-- The bytes of the non-empty chunks add up to the full body length. -/
theorem sum_filter_lengths (l : List Chunk) :
    ((l.filter fun c => !c.isEmpty).map List.length).sum = l.flatten.length := by
  induction l with
  | nil => rfl
  | cons c r ih =>
    cases c with
    | nil => simpa using ih
    | cons b bs =>
      simp [List.filter_cons, ih]
      omega


/-- Resolution of a local path: one log line, the unchanged path, no cleanup
obligation. -/
theorem resolve_local {M D : Type} (w : World M D) (input : String)
    (h1 : strStartsWith input "nequip.net:" = false)
    (h2 : strStartsWith input "http://" = false)
    (h3 : strStartsWith input "https://" = false) :
    _get_model_file_path w input =
      ⟨[Event.logInfo ("Loading model from " ++ input ++ " ...")], .ok input,
        [], w.fsExists⟩ := by
  simp [_get_model_file_path, h1, h2, h3]

/-- Resolution of a URL whose response is 4xx/5xx: the temp file is created,
the failed request propagates, and the temp file is deleted on the way out. -/
theorem resolve_url_err {M D : Type} (w : World M D) (input : String)
    (h1 : strStartsWith input "nequip.net:" = false)
    (hu : (strStartsWith input "http://" || strStartsWith input "https://") = true)
    (h : 400 ≤ (w.http input).status ∧ (w.http input).status < 600) :
    _get_model_file_path w input =
      ⟨[Event.tmpCreate (w.tmpBase ++ ".nequip.zip"),
        Event.logInfo ("Downloading model from " ++ input ++ "..."),
        Event.httpGet input,
        Event.tmpDelete (w.tmpBase ++ ".nequip.zip")],
        .error (.httpError (w.http input).status input), [], w.fsExists⟩ := by
  simp [_get_model_file_path, h1, hu, download_err w input _ h]

/-- Resolution of a URL whose response is not an error: the temp file is
created, the body is written chunk by chunk, and the temp path is yielded
with the deletion pending on scope exit. -/
theorem resolve_url_ok {M D : Type} (w : World M D) (input : String)
    (h1 : strStartsWith input "nequip.net:" = false)
    (hu : (strStartsWith input "http://" || strStartsWith input "https://") = true)
    (h : ¬(400 ≤ (w.http input).status ∧ (w.http input).status < 600)) :
    _get_model_file_path w input =
      ⟨[Event.tmpCreate (w.tmpBase ++ ".nequip.zip"),
          Event.logInfo ("Downloading model from " ++ input ++ "...")]
        ++ (Event.httpGet input ::
            ((w.http input).chunks.filter fun c => !c.isEmpty).map
              (fun c => Event.writeChunk (w.tmpBase ++ ".nequip.zip") c.length))
        ++ [Event.logInfo "Download complete, loading model..."],
        .ok (w.tmpBase ++ ".nequip.zip"),
        [Event.tmpDelete (w.tmpBase ++ ".nequip.zip")],
        fun p => p == w.tmpBase ++ ".nequip.zip" || w.fsExists p⟩ := by
  simp [_get_model_file_path, h1, hu, download_ok w input _ h]

/-- Resolution of a registry id whose metadata lookup fails: the lookup error
propagates and the temp file is deleted on the way out. -/
theorem resolve_net_regerr {M D : Type} (w : World M D) (input : String)
    (h1 : strStartsWith input "nequip.net:" = true) (err : PyError)
    (hreg : w.registry (strDrop input "nequip.net:".length) = .error err) :
    _get_model_file_path w input =
      ⟨[Event.tmpCreate (w.tmpBase ++ ".nequip.zip"),
        Event.logInfo ("Fetching " ++ strDrop input "nequip.net:".length
          ++ " from nequip.net..."),
        Event.registryLookup (strDrop input "nequip.net:".length),
        Event.tmpDelete (w.tmpBase ++ ".nequip.zip")],
        .error err, [], w.fsExists⟩ := by
  simp [_get_model_file_path, h1, hreg]

/-- Resolution of a registry id whose artifact download fails: the request
error propagates and the temp file is deleted on the way out. -/
theorem resolve_net_dlerr {M D : Type} (w : World M D) (input : String)
    (h1 : strStartsWith input "nequip.net:" = true) (info : ModelInfo)
    (hreg : w.registry (strDrop input "nequip.net:".length) = .ok info)
    (h : 400 ≤ (w.http info.artifact.download_url).status ∧
      (w.http info.artifact.download_url).status < 600) :
    _get_model_file_path w input =
      ⟨[Event.tmpCreate (w.tmpBase ++ ".nequip.zip"),
          Event.logInfo ("Fetching " ++ strDrop input "nequip.net:".length
            ++ " from nequip.net..."),
          Event.registryLookup (strDrop input "nequip.net:".length)]
        ++ newerNote (strDrop input "nequip.net:".length) info
        ++ [Event.httpGet info.artifact.download_url,
          Event.tmpDelete (w.tmpBase ++ ".nequip.zip")],
        .error (.httpError (w.http info.artifact.download_url).status
          info.artifact.download_url), [], w.fsExists⟩ := by
  simp [_get_model_file_path, h1, hreg, download_err w info.artifact.download_url _ h]

/-- Resolution of a registry id that succeeds: lookup, optional newer-version
notice, download, and the temp path is yielded with deletion pending. -/
theorem resolve_net_ok {M D : Type} (w : World M D) (input : String)
    (h1 : strStartsWith input "nequip.net:" = true) (info : ModelInfo)
    (hreg : w.registry (strDrop input "nequip.net:".length) = .ok info)
    (h : ¬(400 ≤ (w.http info.artifact.download_url).status ∧
      (w.http info.artifact.download_url).status < 600)) :
    _get_model_file_path w input =
      ⟨[Event.tmpCreate (w.tmpBase ++ ".nequip.zip"),
          Event.logInfo ("Fetching " ++ strDrop input "nequip.net:".length
            ++ " from nequip.net..."),
          Event.registryLookup (strDrop input "nequip.net:".length)]
        ++ newerNote (strDrop input "nequip.net:".length) info
        ++ (Event.httpGet info.artifact.download_url ::
            ((w.http info.artifact.download_url).chunks.filter fun c => !c.isEmpty).map
              (fun c => Event.writeChunk (w.tmpBase ++ ".nequip.zip") c.length))
        ++ [Event.logInfo "Download complete, loading model..."],
        .ok (w.tmpBase ++ ".nequip.zip"),
        [Event.tmpDelete (w.tmpBase ++ ".nequip.zip")],
        fun p => p == w.tmpBase ++ ".nequip.zip" || w.fsExists p⟩ := by
  simp [_get_model_file_path, h1, hreg, download_ok w info.artifact.download_url _ h]


/-- Non-body events do not move the persistent-only scope fold. -/
theorem scopeStep_fixed (e : Event) (h : isBodyEvent e = false) (s : Nat × Bool) :
    scopeStep s e = s := by
  obtain ⟨d, ok⟩ := s
  cases e <;> first | rfl | simp [isBodyEvent] at h

/-- Non-resource events do not move the temp-file liveness fold. -/
theorem aliveStep_fixed (e : Event) (h : isResourceEvent e = false) (acc : List String) :
    aliveStep acc e = acc := by
  cases e <;> first | rfl | simp [isResourceEvent] at h

/-- Non-resource events do not move the acquire-before-download fold. -/
theorem dlAcqStep_fixed (e : Event) (h : isResourceEvent e = false) (s : Bool × Bool) :
    dlAcqStep s e = s := by
  obtain ⟨c, ok⟩ := s
  cases e <;> first | rfl | simp [isResourceEvent] at h

/-- Non-resource events do not move the lookup-before-download fold. -/
theorem lookupBeforeStep_fixed (e : Event) (h : isResourceEvent e = false) (s : Bool × Bool) :
    lookupBeforeStep s e = s := by
  obtain ⟨seen, ok⟩ := s
  cases e <;> first | rfl | simp [isResourceEvent] at h

/-- Resolution emits no loader-body events: those are produced only by the
dispatcher. -/
theorem resolution_no_body_events {M D : Type} (w : World M D) (input : String) (e : Event)
    (he : e ∈ (_get_model_file_path w input).preEvents ∨
      e ∈ (_get_model_file_path w input).postEvents) :
    isBodyEvent e = false := by
  by_cases h1 : strStartsWith input "nequip.net:"
  · cases hreg : w.registry (strDrop input "nequip.net:".length) with
    | error err =>
      rw [resolve_net_regerr w input h1 err hreg] at he
      rcases he with he | he
      · simp only [List.mem_cons, List.not_mem_nil, or_false] at he
        rcases he with rfl | rfl | rfl | rfl <;> rfl
      · simp at he
    | ok info =>
      by_cases hs : 400 ≤ (w.http info.artifact.download_url).status ∧
          (w.http info.artifact.download_url).status < 600
      · rw [resolve_net_dlerr w input h1 info hreg hs] at he
        rcases he with he | he
        · rcases List.mem_append.1 he with h' | h'
          · rcases List.mem_append.1 h' with h'' | h''
            · simp only [List.mem_cons, List.not_mem_nil, or_false] at h''
              rcases h'' with rfl | rfl | rfl <;> rfl
            · rcases mem_newerNote _ _ _ h'' with ⟨m, rfl⟩; rfl
          · simp only [List.mem_cons, List.not_mem_nil, or_false] at h'
            rcases h' with rfl | rfl <;> rfl
        · simp at he
      · rw [resolve_net_ok w input h1 info hreg hs] at he
        rcases he with he | he
        · rcases List.mem_append.1 he with h' | h'
          · rcases List.mem_append.1 h' with h'' | h''
            · rcases List.mem_append.1 h'' with h3 | h3
              · simp only [List.mem_cons, List.not_mem_nil, or_false] at h3
                rcases h3 with rfl | rfl | rfl <;> rfl
              · rcases mem_newerNote _ _ _ h3 with ⟨m, rfl⟩; rfl
            · rcases List.mem_cons.1 h'' with rfl | h3
              · rfl
              · rcases List.mem_map.1 h3 with ⟨c, _, rfl⟩; rfl
          · simp only [List.mem_singleton] at h'
            subst h'; rfl
        · simp only [List.mem_singleton] at he
          subst he; rfl
  · have h1' : strStartsWith input "nequip.net:" = false := by simpa using h1
    by_cases hu : (strStartsWith input "http://" || strStartsWith input "https://") = true
    · by_cases hs : 400 ≤ (w.http input).status ∧ (w.http input).status < 600
      · rw [resolve_url_err w input h1' hu hs] at he
        rcases he with he | he
        · simp only [List.mem_cons, List.not_mem_nil, or_false] at he
          rcases he with rfl | rfl | rfl | rfl <;> rfl
        · simp at he
      · rw [resolve_url_ok w input h1' hu hs] at he
        rcases he with he | he
        · rcases List.mem_append.1 he with h' | h'
          · rcases List.mem_append.1 h' with h'' | h''
            · simp only [List.mem_cons, List.not_mem_nil, or_false] at h''
              rcases h'' with rfl | rfl <;> rfl
            · rcases List.mem_cons.1 h'' with rfl | h3
              · rfl
              · rcases List.mem_map.1 h3 with ⟨c, _, rfl⟩; rfl
          · simp only [List.mem_singleton] at h'
            subst h'; rfl
        · simp only [List.mem_singleton] at he
          subst he; rfl
    · have h2 : strStartsWith input "http://" = false := by
        cases hx : strStartsWith input "http://" <;> simp [hx] at hu ⊢
      have h3 : strStartsWith input "https://" = false := by
        cases hx : strStartsWith input "https://" <;> simp [hx] at hu ⊢
      rw [resolve_local w input h1' h2 h3] at he
      rcases he with he | he
      · simp only [List.mem_singleton] at he
        subst he; rfl
      · simp at he


/-- `load_saved_model` when resolution fails: the error propagates and only
resolution events appear. -/
theorem load_eq_err {M D : Type} (w : World M D) (input cm key : String) (b : Bool)
    (e : PyError) (hres : (_get_model_file_path w input).result = .error e) :
    load_saved_model w input cm key b =
      ((_get_model_file_path w input).preEvents
          ++ (_get_model_file_path w input).postEvents, .error e) := by
  simp [load_saved_model, hres]

/-- `load_saved_model` when the resolved file does not exist: `ValueError`
naming input and resolved path, and no loader runs. -/
theorem load_eq_missing {M D : Type} (w : World M D) (input cm key : String) (b : Bool)
    (p : String) (hres : (_get_model_file_path w input).result = .ok p)
    (hex : (_get_model_file_path w input).fs p = false) :
    load_saved_model w input cm key b =
      ((_get_model_file_path w input).preEvents
          ++ (_get_model_file_path w input).postEvents,
        .error (.valueError ("Model file does not exist: " ++ input
          ++ " (resolved to: " ++ p ++ ")"))) := by
  simp [load_saved_model, hres, hex]

/-- `load_saved_model`, checkpoint kind, model only. -/
theorem load_eq_ckpt {M D : Type} (w : World M D) (input cm key : String)
    (p : String) (hres : (_get_model_file_path w input).result = .ok p)
    (hex : (_get_model_file_path w input).fs p = true)
    (hz : strEndsWith p ".nequip.zip" = false) :
    load_saved_model w input cm key false =
      ((_get_model_file_path w input).preEvents
          ++ [Event.enterPersistentOnly, Event.deserializeCheckpoint p,
            Event.exitPersistentOnly]
          ++ (_get_model_file_path w input).postEvents,
        .ok (.model (w.ModelFromCheckpoint p cm key))) := by
  simp [load_saved_model, hres, hex, hz]

/-- `load_saved_model`, checkpoint kind, with the companion data dict. -/
theorem load_eq_ckpt_data {M D : Type} (w : World M D) (input cm key : String)
    (p : String) (hres : (_get_model_file_path w input).result = .ok p)
    (hex : (_get_model_file_path w input).fs p = true)
    (hz : strEndsWith p ".nequip.zip" = false) :
    load_saved_model w input cm key true =
      ((_get_model_file_path w input).preEvents
          ++ [Event.enterPersistentOnly, Event.deserializeCheckpoint p,
            Event.exitPersistentOnly]
          ++ [Event.dataFromCheckpoint p]
          ++ (_get_model_file_path w input).postEvents,
        .ok (.modelAndData (w.ModelFromCheckpoint p cm key)
          (w.data_dict_from_checkpoint p))) := by
  simp [load_saved_model, hres, hex, hz]

/-- `load_saved_model`, package kind, model only. -/
theorem load_eq_pkg {M D : Type} (w : World M D) (input cm key : String)
    (p : String) (hres : (_get_model_file_path w input).result = .ok p)
    (hex : (_get_model_file_path w input).fs p = true)
    (hz : strEndsWith p ".nequip.zip" = true) :
    load_saved_model w input cm key false =
      ((_get_model_file_path w input).preEvents
          ++ [Event.deserializePackage p]
          ++ (_get_model_file_path w input).postEvents,
        .ok (.model (w.ModelFromPackage p cm key))) := by
  simp [load_saved_model, hres, hex, hz]

/-- `load_saved_model`, package kind, with the companion data dict. -/
theorem load_eq_pkg_data {M D : Type} (w : World M D) (input cm key : String)
    (p : String) (hres : (_get_model_file_path w input).result = .ok p)
    (hex : (_get_model_file_path w input).fs p = true)
    (hz : strEndsWith p ".nequip.zip" = true) :
    load_saved_model w input cm key true =
      ((_get_model_file_path w input).preEvents
          ++ [Event.deserializePackage p]
          ++ [Event.dataFromPackage p]
          ++ (_get_model_file_path w input).postEvents,
        .ok (.modelAndData (w.ModelFromPackage p cm key)
          (w.data_dict_from_package p))) := by
  simp [load_saved_model, hres, hex, hz]


@[simp] theorem aliveStep_create (acc : List String) (n : String) :
    aliveStep acc (Event.tmpCreate n) = n :: acc := rfl

@[simp] theorem aliveStep_delete (acc : List String) (n : String) :
    aliveStep acc (Event.tmpDelete n) = acc.erase n := rfl

@[simp] theorem aliveStep_log (acc : List String) (m : String) :
    aliveStep acc (Event.logInfo m) = acc := rfl

@[simp] theorem aliveStep_lookup (acc : List String) (i : String) :
    aliveStep acc (Event.registryLookup i) = acc := rfl

@[simp] theorem aliveStep_get (acc : List String) (u : String) :
    aliveStep acc (Event.httpGet u) = acc := rfl

@[simp] theorem aliveStep_write (acc : List String) (t : String) (n : Nat) :
    aliveStep acc (Event.writeChunk t n) = acc := rfl

@[simp] theorem dlAcqStep_create (c ok : Bool) (n : String) :
    dlAcqStep (c, ok) (Event.tmpCreate n) = (true, ok) := rfl

@[simp] theorem dlAcqStep_delete (c ok : Bool) (n : String) :
    dlAcqStep (c, ok) (Event.tmpDelete n) = (c, ok) := rfl

@[simp] theorem dlAcqStep_log (c ok : Bool) (m : String) :
    dlAcqStep (c, ok) (Event.logInfo m) = (c, ok) := rfl

@[simp] theorem dlAcqStep_lookup (c ok : Bool) (i : String) :
    dlAcqStep (c, ok) (Event.registryLookup i) = (c, ok) := rfl

@[simp] theorem dlAcqStep_get (c ok : Bool) (u : String) :
    dlAcqStep (c, ok) (Event.httpGet u) = (c, ok && c) := rfl

@[simp] theorem dlAcqStep_write (c ok : Bool) (t : String) (n : Nat) :
    dlAcqStep (c, ok) (Event.writeChunk t n) = (c, ok && c) := rfl

@[simp] theorem scopeStep_enter (d : Nat) (ok : Bool) :
    scopeStep (d, ok) Event.enterPersistentOnly = (d + 1, ok) := rfl

@[simp] theorem scopeStep_leave (d : Nat) (ok : Bool) :
    scopeStep (d, ok) Event.exitPersistentOnly = (d - 1, ok) := rfl

@[simp] theorem scopeStep_ckpt (d : Nat) (ok : Bool) (p : String) :
    scopeStep (d, ok) (Event.deserializeCheckpoint p) = (d, ok && decide (0 < d)) := rfl

@[simp] theorem scopeStep_pkg (d : Nat) (ok : Bool) (p : String) :
    scopeStep (d, ok) (Event.deserializePackage p) = (d, ok && decide (d = 0)) := rfl

@[simp] theorem lookupBeforeStep_lookup (seen ok : Bool) (i : String) :
    lookupBeforeStep (seen, ok) (Event.registryLookup i) = (true, ok) := rfl

@[simp] theorem lookupBeforeStep_get (seen ok : Bool) (u : String) :
    lookupBeforeStep (seen, ok) (Event.httpGet u) = (seen, ok && seen) := rfl

@[simp] theorem lookupBeforeStep_create (seen ok : Bool) (n : String) :
    lookupBeforeStep (seen, ok) (Event.tmpCreate n) = (seen, ok) := rfl

@[simp] theorem lookupBeforeStep_delete (seen ok : Bool) (n : String) :
    lookupBeforeStep (seen, ok) (Event.tmpDelete n) = (seen, ok) := rfl

@[simp] theorem lookupBeforeStep_log (seen ok : Bool) (m : String) :
    lookupBeforeStep (seen, ok) (Event.logInfo m) = (seen, ok) := rfl

@[simp] theorem lookupBeforeStep_write (seen ok : Bool) (t : String) (n : Nat) :
    lookupBeforeStep (seen, ok) (Event.writeChunk t n) = (seen, ok) := rfl

/-- A fold whose state is fixed on chunk writes is fixed on a write burst. -/
theorem foldl_writes_fixed {σ : Type} (f : σ → Event → σ) (s : σ) (t : String)
    (ws : List Chunk) (h : ∀ n, f s (Event.writeChunk t n) = s) :
    List.foldl f s (ws.map fun c => Event.writeChunk t c.length) = s :=
  foldl_fixed fun e he => by
    rcases List.mem_map.1 he with ⟨c, _, rfl⟩
    exact h c.length

/-- A fold whose state is fixed on log lines is fixed on the newer-version
notice. -/
theorem foldl_note_fixed {σ : Type} (f : σ → Event → σ) (s : σ) (i : String)
    (info : ModelInfo) (h : ∀ m, f s (Event.logInfo m) = s) :
    List.foldl f s (newerNote i info) = s :=
  foldl_fixed fun e he => by
    rcases mem_newerNote _ _ _ he with ⟨m, rfl⟩
    exact h m

/-- Across resolution (setup and cleanup together), no temp file survives. -/
theorem resolution_alive {M D : Type} (w : World M D) (input : String) :
    List.foldl aliveStep
      (List.foldl aliveStep [] (_get_model_file_path w input).preEvents)
      (_get_model_file_path w input).postEvents = [] := by
  by_cases h1 : strStartsWith input "nequip.net:"
  · cases hreg : w.registry (strDrop input "nequip.net:".length) with
    | error err =>
      rw [resolve_net_regerr w input h1 err hreg]
      simp
    | ok info =>
      by_cases hs : 400 ≤ (w.http info.artifact.download_url).status ∧
          (w.http info.artifact.download_url).status < 600
      · rw [resolve_net_dlerr w input h1 info hreg hs]
        simp only [List.foldl_append, List.foldl_cons, List.foldl_nil,
          aliveStep_create, aliveStep_log, aliveStep_lookup]
        rw [foldl_note_fixed aliveStep _ _ info (fun m => rfl)]
        simp
      · rw [resolve_net_ok w input h1 info hreg hs]
        simp only [List.foldl_append, List.foldl_cons, List.foldl_nil,
          aliveStep_create, aliveStep_log, aliveStep_lookup, aliveStep_get]
        rw [foldl_note_fixed aliveStep _ _ info (fun m => rfl),
          foldl_writes_fixed aliveStep _ _ _ (fun n => rfl)]
        simp
  · have h1' : strStartsWith input "nequip.net:" = false := by simpa using h1
    by_cases hu : (strStartsWith input "http://" || strStartsWith input "https://") = true
    · by_cases hs : 400 ≤ (w.http input).status ∧ (w.http input).status < 600
      · rw [resolve_url_err w input h1' hu hs]
        simp
      · rw [resolve_url_ok w input h1' hu hs]
        simp only [List.foldl_append, List.foldl_cons, List.foldl_nil,
          aliveStep_create, aliveStep_log, aliveStep_get]
        rw [foldl_writes_fixed aliveStep _ _ _ (fun n => rfl)]
        simp
    · have h2 : strStartsWith input "http://" = false := by
        cases hx : strStartsWith input "http://" <;> simp [hx] at hu ⊢
      have h3 : strStartsWith input "https://" = false := by
        cases hx : strStartsWith input "https://" <;> simp [hx] at hu ⊢
      rw [resolve_local w input h1' h2 h3]
      simp

/-- Across resolution, every network operation happens after the temp file is
acquired. -/
theorem resolution_acquire {M D : Type} (w : World M D) (input : String) :
    (List.foldl dlAcqStep
      (List.foldl dlAcqStep (false, true) (_get_model_file_path w input).preEvents)
      (_get_model_file_path w input).postEvents).2 = true := by
  by_cases h1 : strStartsWith input "nequip.net:"
  · cases hreg : w.registry (strDrop input "nequip.net:".length) with
    | error err =>
      rw [resolve_net_regerr w input h1 err hreg]
      simp
    | ok info =>
      by_cases hs : 400 ≤ (w.http info.artifact.download_url).status ∧
          (w.http info.artifact.download_url).status < 600
      · rw [resolve_net_dlerr w input h1 info hreg hs]
        simp only [List.foldl_append, List.foldl_cons, List.foldl_nil,
          dlAcqStep_create, dlAcqStep_log, dlAcqStep_lookup]
        rw [foldl_note_fixed dlAcqStep _ _ info (fun m => rfl)]
        simp
      · rw [resolve_net_ok w input h1 info hreg hs]
        simp only [List.foldl_append, List.foldl_cons, List.foldl_nil,
          dlAcqStep_create, dlAcqStep_log, dlAcqStep_lookup, dlAcqStep_get]
        rw [foldl_note_fixed dlAcqStep _ _ info (fun m => rfl)]
        simp only [dlAcqStep_get, Bool.and_self]
        rw [foldl_writes_fixed dlAcqStep (true, true) _ _ (fun n => rfl)]
        simp
  · have h1' : strStartsWith input "nequip.net:" = false := by simpa using h1
    by_cases hu : (strStartsWith input "http://" || strStartsWith input "https://") = true
    · by_cases hs : 400 ≤ (w.http input).status ∧ (w.http input).status < 600
      · rw [resolve_url_err w input h1' hu hs]
        simp
      · rw [resolve_url_ok w input h1' hu hs]
        simp only [List.foldl_append, List.foldl_cons, List.foldl_nil,
          dlAcqStep_create, dlAcqStep_log, dlAcqStep_get]
        rw [show (true && true : Bool) = true from rfl]
        rw [foldl_writes_fixed dlAcqStep (true, true) _ _ (fun n => rfl)]
        simp
    · have h2 : strStartsWith input "http://" = false := by
        cases hx : strStartsWith input "http://" <;> simp [hx] at hu ⊢
      have h3 : strStartsWith input "https://" = false := by
        cases hx : strStartsWith input "https://" <;> simp [hx] at hu ⊢
      rw [resolve_local w input h1' h2 h3]
      simp


@[simp] theorem scopeStep_dataCkpt (d : Nat) (ok : Bool) (p : String) :
    scopeStep (d, ok) (Event.dataFromCheckpoint p) = (d, ok) := rfl

@[simp] theorem scopeStep_dataPkg (d : Nat) (ok : Bool) (p : String) :
    scopeStep (d, ok) (Event.dataFromPackage p) = (d, ok) := rfl

/-- The trace of the dispatcher is the resolution trace with a loader-body segment
spliced in before the cleanup; the body touches no resource, and walking it
from outside the persistent-only scope respects the scope discipline and ends
outside the scope again. -/
theorem load_trace_shape {M D : Type} (w : World M D) (input cm key : String) (b : Bool) :
    ∃ mid, (load_saved_model w input cm key b).1 =
        (_get_model_file_path w input).preEvents ++ mid
          ++ (_get_model_file_path w input).postEvents ∧
      (∀ e ∈ mid, isResourceEvent e = false) ∧
      List.foldl scopeStep (0, true) mid = (0, true) := by
  cases hres : (_get_model_file_path w input).result with
  | error e =>
    refine ⟨[], ?_, by simp, rfl⟩
    rw [load_eq_err w input cm key b e hres]
    simp
  | ok p =>
    cases hex : (_get_model_file_path w input).fs p with
    | false =>
      refine ⟨[], ?_, by simp, rfl⟩
      rw [load_eq_missing w input cm key b p hres hex]
      simp
    | true =>
      cases hz : strEndsWith p ".nequip.zip" with
      | false =>
        cases b with
        | false =>
          refine ⟨[Event.enterPersistentOnly, Event.deserializeCheckpoint p,
            Event.exitPersistentOnly], ?_, ?_, by simp⟩
          · rw [load_eq_ckpt w input cm key p hres hex hz]
          · intro e he
            simp only [List.mem_cons, List.not_mem_nil, or_false] at he
            rcases he with rfl | rfl | rfl <;> rfl
        | true =>
          refine ⟨[Event.enterPersistentOnly, Event.deserializeCheckpoint p,
            Event.exitPersistentOnly, Event.dataFromCheckpoint p], ?_, ?_, by simp⟩
          · rw [load_eq_ckpt_data w input cm key p hres hex hz]
            simp
          · intro e he
            simp only [List.mem_cons, List.not_mem_nil, or_false] at he
            rcases he with rfl | rfl | rfl | rfl <;> rfl
      | true =>
        cases b with
        | false =>
          refine ⟨[Event.deserializePackage p], ?_, ?_, by simp⟩
          · rw [load_eq_pkg w input cm key p hres hex hz]
          · intro e he
            simp only [List.mem_singleton] at he
            subst he; rfl
        | true =>
          refine ⟨[Event.deserializePackage p, Event.dataFromPackage p], ?_, ?_, by simp⟩
          · rw [load_eq_pkg_data w input cm key p hres hex hz]
            simp
          · intro e he
            simp only [List.mem_cons, List.not_mem_nil, or_false] at he
            rcases he with rfl | rfl <;> rfl


/-- Claim C2: whenever `load_saved_model` deserializes a checkpoint file, the
deserialization happens inside the scoped `only_apply_persistent_modifiers`
override (positive scope depth at that point of the trace), and whenever it
deserializes a package file no such restriction is active (scope depth zero),
for every environment, input and option combination. -/
theorem claim_C2_checkpoint_scoped_persistent_only {M D : Type} (w : World M D)
    (input compile_mode model_key : String) (return_data_dict : Bool) :
    modifierScopesOK
      (load_saved_model w input compile_mode model_key return_data_dict).1 = true := by
  obtain ⟨mid, htr, _, hscope⟩ :=
    load_trace_shape w input compile_mode model_key return_data_dict
  rw [htr]
  unfold modifierScopesOK
  rw [List.foldl_append, List.foldl_append]
  have hpre : List.foldl scopeStep (0, true)
      (_get_model_file_path w input).preEvents = (0, true) :=
    foldl_fixed fun e he =>
      scopeStep_fixed e (resolution_no_body_events w input e (Or.inl he)) _
  rw [hpre, hscope]
  have hpost : List.foldl scopeStep (0, true)
      (_get_model_file_path w input).postEvents = (0, true) :=
    foldl_fixed fun e he =>
      scopeStep_fixed e (resolution_no_body_events w input e (Or.inr he)) _
  rw [hpost]

/-- Claim C5: for every environment, input and option combination, after
`load_saved_model` finishes (by any path: success, missing-file error, or
propagated network failure), no temp file created during resolution still
exists, and the temp file is always acquired before any download activity
(HTTP request or chunk write) begins. -/
theorem claim_C5_temp_file_scoped {M D : Type} (w : World M D)
    (input compile_mode model_key : String) (return_data_dict : Bool) :
    aliveTmpsAfter
        (load_saved_model w input compile_mode model_key return_data_dict).1 = [] ∧
    downloadsAfterAcquire
        (load_saved_model w input compile_mode model_key return_data_dict).1 = true := by
  obtain ⟨mid, htr, hmid, _⟩ :=
    load_trace_shape w input compile_mode model_key return_data_dict
  constructor
  · rw [htr]
    unfold aliveTmpsAfter
    rw [List.foldl_append, List.foldl_append]
    have hm : List.foldl aliveStep
        (List.foldl aliveStep [] (_get_model_file_path w input).preEvents) mid =
        List.foldl aliveStep [] (_get_model_file_path w input).preEvents :=
      foldl_fixed fun e he => aliveStep_fixed e (hmid e he) _
    rw [hm]
    exact resolution_alive w input
  · rw [htr]
    unfold downloadsAfterAcquire
    rw [List.foldl_append, List.foldl_append]
    have hm : List.foldl dlAcqStep
        (List.foldl dlAcqStep (false, true) (_get_model_file_path w input).preEvents) mid =
        List.foldl dlAcqStep (false, true) (_get_model_file_path w input).preEvents :=
      foldl_fixed fun e he => dlAcqStep_fixed e (hmid e he) _
    rw [hm]
    exact resolution_acquire w input


/-- Loader-body events never occur among resolution events. -/
theorem body_event_not_in_resolution {M D : Type} (w : World M D) (input : String)
    (e : Event) (hb : isBodyEvent e = true) :
    e ∉ (_get_model_file_path w input).preEvents ∧
    e ∉ (_get_model_file_path w input).postEvents :=
  ⟨fun h => by simpa [hb] using resolution_no_body_events w input e (Or.inl h),
    fun h => by simpa [hb] using resolution_no_body_events w input e (Or.inr h)⟩

/-- Claim C1: for every resolved file path that exists, `load_saved_model`
routes to the package loader exactly when the path ends in `.nequip.zip`, and
to the checkpoint loader exactly otherwise — regardless of file content,
which the dispatch never inspects. -/
theorem claim_C1_loader_dispatch {M D : Type} (w : World M D)
    (input compile_mode model_key : String) (return_data_dict : Bool) (p : String)
    (hres : (_get_model_file_path w input).result = .ok p)
    (hex : (_get_model_file_path w input).fs p = true) :
    (Event.deserializePackage p ∈
        (load_saved_model w input compile_mode model_key return_data_dict).1 ↔
      strEndsWith p ".nequip.zip" = true) ∧
    (Event.deserializeCheckpoint p ∈
        (load_saved_model w input compile_mode model_key return_data_dict).1 ↔
      strEndsWith p ".nequip.zip" = false) := by
  have hCk := body_event_not_in_resolution w input (Event.deserializeCheckpoint p) rfl
  have hPk := body_event_not_in_resolution w input (Event.deserializePackage p) rfl
  cases hz : strEndsWith p ".nequip.zip" with
  | true =>
    cases return_data_dict with
    | false =>
      rw [load_eq_pkg w input compile_mode model_key p hres hex hz]
      constructor
      · simp
      · simp [List.mem_append, hCk.1, hCk.2]
    | true =>
      rw [load_eq_pkg_data w input compile_mode model_key p hres hex hz]
      constructor
      · simp
      · simp [List.mem_append, hCk.1, hCk.2]
  | false =>
    cases return_data_dict with
    | false =>
      rw [load_eq_ckpt w input compile_mode model_key p hres hex hz]
      constructor
      · simp [List.mem_append, hPk.1, hPk.2]
      · simp
    | true =>
      rw [load_eq_ckpt_data w input compile_mode model_key p hres hex hz]
      constructor
      · simp [List.mem_append, hPk.1, hPk.2]
      · simp

/-- Witness for C1: in the concrete world `w1`, the existing local file
`model.pt` resolves to itself and is dispatched to the checkpoint loader, not
the package loader. -/
theorem claim_C1_loader_dispatch_witness :
    ((_get_model_file_path w1 "model.pt").result = .ok "model.pt" ∧
      (_get_model_file_path w1 "model.pt").fs "model.pt" = true) ∧
    ((Event.deserializePackage "model.pt" ∈
        (load_saved_model w1 "model.pt" _EAGER_MODEL_KEY _SOLE_MODEL_KEY false).1 ↔
      strEndsWith "model.pt" ".nequip.zip" = true) ∧
    (Event.deserializeCheckpoint "model.pt" ∈
        (load_saved_model w1 "model.pt" _EAGER_MODEL_KEY _SOLE_MODEL_KEY false).1 ↔
      strEndsWith "model.pt" ".nequip.zip" = false)) :=
  ⟨⟨rfl, rfl⟩,
    claim_C1_loader_dispatch w1 "model.pt" _EAGER_MODEL_KEY _SOLE_MODEL_KEY false
      "model.pt" rfl rfl⟩


/-- Claim C6: a local-path input (no `http://`, `https://` or `nequip.net:`
prefix) referring to an existing file resolves to that exact path unchanged,
still referring to an existing file, and resolution creates no temp file and
performs no network operation (no resource event at all in its trace). -/
theorem claim_C6_local_passthrough {M D : Type} (w : World M D) (input : String)
    (h1 : strStartsWith input "nequip.net:" = false)
    (h2 : strStartsWith input "http://" = false)
    (h3 : strStartsWith input "https://" = false)
    (hex : w.fsExists input = true) :
    (_get_model_file_path w input).result = .ok input ∧
    (_get_model_file_path w input).fs input = true ∧
    (∀ e ∈ (_get_model_file_path w input).preEvents
        ++ (_get_model_file_path w input).postEvents, isResourceEvent e = false) := by
  rw [resolve_local w input h1 h2 h3]
  refine ⟨rfl, hex, ?_⟩
  intro e he
  simp at he
  subst he
  rfl

/-- Witness for C6: in the concrete world `w1`, the existing local file
`model.pt` is passed through untouched. -/
theorem claim_C6_local_passthrough_witness :
    (strStartsWith "model.pt" "nequip.net:" = false ∧
      strStartsWith "model.pt" "http://" = false ∧
      strStartsWith "model.pt" "https://" = false ∧
      w1.fsExists "model.pt" = true) ∧
    ((_get_model_file_path w1 "model.pt").result = .ok "model.pt" ∧
      (_get_model_file_path w1 "model.pt").fs "model.pt" = true) :=
  ⟨⟨rfl, rfl, rfl, rfl⟩,
    (claim_C6_local_passthrough w1 "model.pt" rfl rfl rfl rfl).1,
    (claim_C6_local_passthrough w1 "model.pt" rfl rfl rfl rfl).2.1⟩

/-- Claim C4: every network-sourced input (URL or registry identifier) that
resolves successfully resolves to the temp file, whose name ends in
`.nequip.zip`; hence `load_saved_model` dispatches it to the package loader
and never to the checkpoint loader, regardless of any extension appearing in
the URL or identifier. -/
theorem claim_C4_network_inputs_use_package_loader {M D : Type} (w : World M D)
    (input compile_mode model_key : String) (return_data_dict : Bool) (p : String)
    (hnet : strStartsWith input "nequip.net:" = true ∨
      strStartsWith input "http://" = true ∨ strStartsWith input "https://" = true)
    (hres : (_get_model_file_path w input).result = .ok p) :
    p = w.tmpBase ++ ".nequip.zip" ∧
    strEndsWith p ".nequip.zip" = true ∧
    Event.deserializePackage p ∈
      (load_saved_model w input compile_mode model_key return_data_dict).1 ∧
    (∀ q, Event.deserializeCheckpoint q ∉
      (load_saved_model w input compile_mode model_key return_data_dict).1) := by
  have key : p = w.tmpBase ++ ".nequip.zip" ∧
      (_get_model_file_path w input).fs p = true := by
    by_cases h1 : strStartsWith input "nequip.net:"
    · cases hreg : w.registry (strDrop input "nequip.net:".length) with
      | error err =>
        rw [resolve_net_regerr w input h1 err hreg] at hres
        simp at hres
      | ok info =>
        by_cases hs : 400 ≤ (w.http info.artifact.download_url).status ∧
            (w.http info.artifact.download_url).status < 600
        · rw [resolve_net_dlerr w input h1 info hreg hs] at hres
          simp at hres
        · rw [resolve_net_ok w input h1 info hreg hs] at hres
          simp at hres
          rw [resolve_net_ok w input h1 info hreg hs]
          subst hres
          simp
    · have h1' : strStartsWith input "nequip.net:" = false := by simpa using h1
      have hu : (strStartsWith input "http://" || strStartsWith input "https://") = true := by
        rcases hnet with h | h | h
        · rw [h1'] at h; cases h
        · simp [h]
        · simp [h]
      by_cases hs : 400 ≤ (w.http input).status ∧ (w.http input).status < 600
      · rw [resolve_url_err w input h1' hu hs] at hres
        simp at hres
      · rw [resolve_url_ok w input h1' hu hs] at hres
        simp at hres
        rw [resolve_url_ok w input h1' hu hs]
        subst hres
        simp
  obtain ⟨hp, hfs⟩ := key
  have hz : strEndsWith p ".nequip.zip" = true := by
    rw [hp]; exact strEndsWith_append _ _
  have hCk : ∀ q, (Event.deserializeCheckpoint q ∉
      (_get_model_file_path w input).preEvents ∧
      Event.deserializeCheckpoint q ∉ (_get_model_file_path w input).postEvents) :=
    fun q => body_event_not_in_resolution w input (Event.deserializeCheckpoint q) rfl
  refine ⟨hp, hz, ?_, ?_⟩
  · cases return_data_dict with
    | false => rw [load_eq_pkg w input compile_mode model_key p hres hfs hz]; simp
    | true => rw [load_eq_pkg_data w input compile_mode model_key p hres hfs hz]; simp
  · intro q
    cases return_data_dict with
    | false =>
      rw [load_eq_pkg w input compile_mode model_key p hres hfs hz]
      simp [List.mem_append, (hCk q).1, (hCk q).2]
    | true =>
      rw [load_eq_pkg_data w input compile_mode model_key p hres hfs hz]
      simp [List.mem_append, (hCk q).1, (hCk q).2]

/-- Witness for C4: in the concrete world `w1`, the URL input
`https://host/model.pt` — whose apparent extension is `.pt` — resolves to the
temp file `tmp0.nequip.zip` and is loaded through the package loader. -/
theorem claim_C4_network_inputs_use_package_loader_witness :
    (strStartsWith "https://host/model.pt" "https://" = true ∧
      (_get_model_file_path w1 "https://host/model.pt").result = .ok "tmp0.nequip.zip") ∧
    ("tmp0.nequip.zip" = w1.tmpBase ++ ".nequip.zip" ∧
      strEndsWith "tmp0.nequip.zip" ".nequip.zip" = true ∧
      Event.deserializePackage "tmp0.nequip.zip" ∈
        (load_saved_model w1 "https://host/model.pt" _EAGER_MODEL_KEY _SOLE_MODEL_KEY
          false).1 ∧
      Event.deserializeCheckpoint "tmp0.nequip.zip" ∉
        (load_saved_model w1 "https://host/model.pt" _EAGER_MODEL_KEY _SOLE_MODEL_KEY
          false).1) :=
  ⟨⟨rfl, rfl⟩,
    (claim_C4_network_inputs_use_package_loader w1 "https://host/model.pt"
      _EAGER_MODEL_KEY _SOLE_MODEL_KEY false "tmp0.nequip.zip"
      (Or.inr (Or.inr rfl)) rfl).1,
    (claim_C4_network_inputs_use_package_loader w1 "https://host/model.pt"
      _EAGER_MODEL_KEY _SOLE_MODEL_KEY false "tmp0.nequip.zip"
      (Or.inr (Or.inr rfl)) rfl).2.1,
    (claim_C4_network_inputs_use_package_loader w1 "https://host/model.pt"
      _EAGER_MODEL_KEY _SOLE_MODEL_KEY false "tmp0.nequip.zip"
      (Or.inr (Or.inr rfl)) rfl).2.2.1,
    (claim_C4_network_inputs_use_package_loader w1 "https://host/model.pt"
      _EAGER_MODEL_KEY _SOLE_MODEL_KEY false "tmp0.nequip.zip"
      (Or.inr (Or.inr rfl)) rfl).2.2.2 "tmp0.nequip.zip"⟩


/-- Claim C3 (amended): for every input whose resolved path does not exist on
disk, `load_saved_model` fails with a `ValueError` — not a
`FileNotFoundError`-class error, which this code never raises — whose message
names both the original input and the resolved path, and no model is loaded
(no deserialization happens). -/
theorem claim_C3_missing_file_raises_value_error {M D : Type} (w : World M D)
    (input compile_mode model_key : String) (return_data_dict : Bool) (p : String)
    (hres : (_get_model_file_path w input).result = .ok p)
    (hex : (_get_model_file_path w input).fs p = false) :
    (load_saved_model w input compile_mode model_key return_data_dict).2 =
      .error (.valueError ("Model file does not exist: " ++ input
        ++ " (resolved to: " ++ p ++ ")")) ∧
    (∀ q, Event.deserializeCheckpoint q ∉
        (load_saved_model w input compile_mode model_key return_data_dict).1 ∧
      Event.deserializePackage q ∉
        (load_saved_model w input compile_mode model_key return_data_dict).1) := by
  rw [load_eq_missing w input compile_mode model_key return_data_dict p hres hex]
  refine ⟨rfl, ?_⟩
  intro q
  have hCk := body_event_not_in_resolution w input (Event.deserializeCheckpoint q) rfl
  have hPk := body_event_not_in_resolution w input (Event.deserializePackage q) rfl
  constructor
  · simp [List.mem_append, hCk.1, hCk.2]
  · simp [List.mem_append, hPk.1, hPk.2]

/-- Witness for the amended C3: in the world `wMissing` (empty filesystem),
loading `missing.pt` fails with the `ValueError` naming input and resolved
path. -/
theorem claim_C3_missing_file_raises_value_error_witness :
    ((_get_model_file_path wMissing "missing.pt").result = .ok "missing.pt" ∧
      (_get_model_file_path wMissing "missing.pt").fs "missing.pt" = false) ∧
    (load_saved_model wMissing "missing.pt" _EAGER_MODEL_KEY _SOLE_MODEL_KEY false).2 =
      .error (.valueError
        "Model file does not exist: missing.pt (resolved to: missing.pt)") :=
  ⟨⟨rfl, rfl⟩,
    (claim_C3_missing_file_raises_value_error wMissing "missing.pt" _EAGER_MODEL_KEY
      _SOLE_MODEL_KEY false "missing.pt" rfl rfl).1⟩

/-- Counterexample to C3 as stated: for the nonexistent local file
`missing.pt` (world `wMissing`, empty filesystem), `load_saved_model` raises
`ValueError` — an exception that is not of the `FileNotFoundError` class, in
which the Python `ValueError` does not participate.  The claimed
"`FileNotFoundError`-class error" is wrong; the code (and the error-handling
section of the spec itself) use a value error. -/
theorem claim_C3_counterexample :
    (load_saved_model wMissing "missing.pt" _EAGER_MODEL_KEY _SOLE_MODEL_KEY false).2 =
      .error (.valueError
        "Model file does not exist: missing.pt (resolved to: missing.pt)") ∧
    PyError.isFileNotFoundClass (.valueError
      "Model file does not exist: missing.pt (resolved to: missing.pt)") = false :=
  ⟨rfl, rfl⟩


/-- A filter rejecting log lines skips the newer-version notice. -/
theorem filter_note_eq_nil (p : Event → Bool) (i : String) (info : ModelInfo)
    (h : ∀ m, p (Event.logInfo m) = false) :
    (newerNote i info).filter p = [] := by
  unfold newerNote
  cases info.newer_version_id <;> simp [h]

/-- A filter rejecting chunk writes skips a write burst. -/
theorem filter_writes_eq_nil (p : Event → Bool) (t : String) (ws : List Chunk)
    (h : ∀ n, p (Event.writeChunk t n) = false) :
    (ws.map fun c => Event.writeChunk t c.length).filter p = [] := by
  induction ws with
  | nil => rfl
  | cons c r ih => simp [h, ih]


@[simp] theorem filter_isLookup_note (i : String) (info : ModelInfo) :
    (newerNote i info).filter isLookup = [] :=
  filter_note_eq_nil isLookup i info (fun _ => rfl)

@[simp] theorem filter_isLookup_writes (t : String) (ws : List Chunk) :
    (ws.map fun c => Event.writeChunk t c.length).filter isLookup = [] :=
  filter_writes_eq_nil isLookup t ws (fun _ => rfl)

@[simp] theorem filter_isHttpGet_note (i : String) (info : ModelInfo) :
    (newerNote i info).filter isHttpGet = [] :=
  filter_note_eq_nil isHttpGet i info (fun _ => rfl)

@[simp] theorem filter_isHttpGet_writes (t : String) (ws : List Chunk) :
    (ws.map fun c => Event.writeChunk t c.length).filter isHttpGet = [] :=
  filter_writes_eq_nil isHttpGet t ws (fun _ => rfl)

/-- Claim C7: a registry-identifier input that resolves successfully performs
exactly one registry metadata lookup and exactly one HTTP download, with the
lookup strictly before the download; when the lookup reports a newer version,
only an informational log line is emitted and the artifact of the requested
(old) version is still the one downloaded. -/
theorem claim_C7_one_lookup_then_one_download {M D : Type} (w : World M D) (input : String)
    (h1 : strStartsWith input "nequip.net:" = true) (p : String)
    (hres : (_get_model_file_path w input).result = .ok p) :
    countLookups ((_get_model_file_path w input).preEvents
      ++ (_get_model_file_path w input).postEvents) = 1 ∧
    countHttpGets ((_get_model_file_path w input).preEvents
      ++ (_get_model_file_path w input).postEvents) = 1 ∧
    lookupBeforeDownload ((_get_model_file_path w input).preEvents
      ++ (_get_model_file_path w input).postEvents) = true ∧
    (∀ info, w.registry (strDrop input "nequip.net:".length) = .ok info →
      Event.httpGet info.artifact.download_url ∈
        (_get_model_file_path w input).preEvents ∧
      (∀ v, info.newer_version_id = some v →
        Event.logInfo ("Model " ++ strDrop input "nequip.net:".length
          ++ " has a newer version available: " ++ v)
          ∈ (_get_model_file_path w input).preEvents)) := by
  cases hreg : w.registry (strDrop input "nequip.net:".length) with
  | error err =>
    rw [resolve_net_regerr w input h1 err hreg] at hres
    simp at hres
  | ok info =>
    by_cases hs : 400 ≤ (w.http info.artifact.download_url).status ∧
        (w.http info.artifact.download_url).status < 600
    · rw [resolve_net_dlerr w input h1 info hreg hs] at hres
      simp at hres
    · rw [resolve_net_ok w input h1 info hreg hs]
      refine ⟨?_, ?_, ?_, ?_⟩
      · simp [countLookups, List.filter_append, isLookup]
      · simp [countHttpGets, List.filter_append, isHttpGet]
      · unfold lookupBeforeDownload
        simp only [List.foldl_append, List.foldl_cons, List.foldl_nil,
          lookupBeforeStep_create, lookupBeforeStep_log, lookupBeforeStep_lookup]
        rw [foldl_note_fixed lookupBeforeStep _ _ info (fun m => rfl)]
        simp only [lookupBeforeStep_get, Bool.and_self]
        rw [foldl_writes_fixed lookupBeforeStep (true, true) _ _ (fun n => rfl)]
        simp
      · intro info' hreg'
        obtain rfl : info = info' := Except.ok.inj hreg'
        constructor
        · simp [List.mem_append]
        · intro v hv
          simp [List.mem_append, newerNote, hv]

/-- Witness for C7: in the concrete world `w1`, the registry input
`nequip.net:grp/m:1` performs one lookup, then one download of the requested
version artifact, and logs the newer-version notice. -/
theorem claim_C7_one_lookup_then_one_download_witness :
    ((_get_model_file_path w1 "nequip.net:grp/m:1").result = .ok "tmp0.nequip.zip") ∧
    countLookups ((_get_model_file_path w1 "nequip.net:grp/m:1").preEvents
      ++ (_get_model_file_path w1 "nequip.net:grp/m:1").postEvents) = 1 ∧
    countHttpGets ((_get_model_file_path w1 "nequip.net:grp/m:1").preEvents
      ++ (_get_model_file_path w1 "nequip.net:grp/m:1").postEvents) = 1 ∧
    lookupBeforeDownload ((_get_model_file_path w1 "nequip.net:grp/m:1").preEvents
      ++ (_get_model_file_path w1 "nequip.net:grp/m:1").postEvents) = true ∧
    Event.httpGet "https://host.example/artifact" ∈
      (_get_model_file_path w1 "nequip.net:grp/m:1").preEvents ∧
    Event.logInfo "Model grp/m:1 has a newer version available: grp/m:2" ∈
      (_get_model_file_path w1 "nequip.net:grp/m:1").preEvents :=
  ⟨rfl,
    (claim_C7_one_lookup_then_one_download w1 "nequip.net:grp/m:1" rfl
      "tmp0.nequip.zip" rfl).1,
    (claim_C7_one_lookup_then_one_download w1 "nequip.net:grp/m:1" rfl
      "tmp0.nequip.zip" rfl).2.1,
    (claim_C7_one_lookup_then_one_download w1 "nequip.net:grp/m:1" rfl
      "tmp0.nequip.zip" rfl).2.2.1,
    ((claim_C7_one_lookup_then_one_download w1 "nequip.net:grp/m:1" rfl
      "tmp0.nequip.zip" rfl).2.2.2
        ⟨⟨"https://host.example/artifact", "host.example"⟩, some "grp/m:2"⟩ rfl).1,
    (((claim_C7_one_lookup_then_one_download w1 "nequip.net:grp/m:1" rfl
      "tmp0.nequip.zip" rfl).2.2.2
        ⟨⟨"https://host.example/artifact", "host.example"⟩, some "grp/m:2"⟩ rfl).2
      "grp/m:2" rfl)⟩


/-- Claim C8 (amended): a download whose HTTP response has a 4xx/5xx status —
the statuses `requests.raise_for_status` raises for — fails with a request
error before any chunk is written (the download trace is the lone request);
the error is not retried (exactly one request across resolution) and
propagates, aborting resolution. -/
theorem claim_C8_error_status_aborts_before_write {M D : Type} (w : World M D)
    (input t : String)
    (h1 : strStartsWith input "nequip.net:" = false)
    (hu : (strStartsWith input "http://" || strStartsWith input "https://") = true)
    (h4 : 400 ≤ (w.http input).status) (h6 : (w.http input).status < 600) :
    _download_to_file w input t =
      ([Event.httpGet input], .error (.httpError (w.http input).status input)) ∧
    (_get_model_file_path w input).result =
      .error (.httpError (w.http input).status input) ∧
    countHttpGets ((_get_model_file_path w input).preEvents
      ++ (_get_model_file_path w input).postEvents) = 1 := by
  have h : 400 ≤ (w.http input).status ∧ (w.http input).status < 600 := ⟨h4, h6⟩
  refine ⟨download_err w input t h, ?_, ?_⟩
  · rw [resolve_url_err w input h1 hu h]
  · rw [resolve_url_err w input h1 hu h]
    simp [countHttpGets, isHttpGet]

/-- Witness for the amended C8: in the world `w404` (every request answered
`404`), downloading `https://host/m` fails before writing anything and aborts
resolution after a single request. -/
theorem claim_C8_error_status_aborts_before_write_witness :
    (strStartsWith "https://host/m" "nequip.net:" = false ∧
      (strStartsWith "https://host/m" "http://"
        || strStartsWith "https://host/m" "https://") = true ∧
      400 ≤ (w404.http "https://host/m").status ∧
      (w404.http "https://host/m").status < 600) ∧
    (_download_to_file w404 "https://host/m" "tmp0.nequip.zip" =
      ([Event.httpGet "https://host/m"], .error (.httpError 404 "https://host/m")) ∧
    (_get_model_file_path w404 "https://host/m").result =
      .error (.httpError 404 "https://host/m") ∧
    countHttpGets ((_get_model_file_path w404 "https://host/m").preEvents
      ++ (_get_model_file_path w404 "https://host/m").postEvents) = 1) :=
  ⟨⟨rfl, rfl, by decide, by decide⟩,
    claim_C8_error_status_aborts_before_write w404 "https://host/m" "tmp0.nequip.zip"
      rfl rfl (by decide) (by decide)⟩

/-- Counterexample to C8 as stated: `requests.raise_for_status` raises only
for 4xx and 5xx statuses, so a `304 Not Modified` response — a non-2xx
status — does not make the download sub-routine fail: it returns
successfully. -/
theorem claim_C8_counterexample :
    (w304.http "http://host/m").status = 304 ∧
    ¬(200 ≤ (w304.http "http://host/m").status ∧
      (w304.http "http://host/m").status < 300) ∧
    (_download_to_file w304 "http://host/m" "tmp0.nequip.zip").2 = .ok 0 :=
  ⟨rfl, by decide, rfl⟩

/-- The write burst of a download deposits exactly the chunk lengths. -/
theorem filterMap_chunkBytes_writes (t : String) (ws : List Chunk) :
    (ws.map fun c => Event.writeChunk t c.length).filterMap (chunkBytes t) =
      ws.map List.length := by
  induction ws with
  | nil => rfl
  | cons c r ih => simp [chunkBytes, ih]

/-- Claim C9: a URL input that resolves successfully has the full byte content
of the response body written to the temp file before the path is yielded: the
bytes written during resolution setup equal the response body length, and
nothing more is written afterwards. -/
theorem claim_C9_full_body_written {M D : Type} (w : World M D) (input : String)
    (h1 : strStartsWith input "nequip.net:" = false)
    (hu : (strStartsWith input "http://" || strStartsWith input "https://") = true)
    (p : String) (hres : (_get_model_file_path w input).result = .ok p) :
    bytesWritten (w.tmpBase ++ ".nequip.zip")
        (_get_model_file_path w input).preEvents =
      (w.http input).chunks.flatten.length ∧
    bytesWritten (w.tmpBase ++ ".nequip.zip")
        (_get_model_file_path w input).postEvents = 0 := by
  by_cases hs : 400 ≤ (w.http input).status ∧ (w.http input).status < 600
  · rw [resolve_url_err w input h1 hu hs] at hres
    simp at hres
  · rw [resolve_url_ok w input h1 hu hs]
    constructor
    · simp only [bytesWritten, List.filterMap_append, List.sum_append,
        List.filterMap_cons, chunkBytes]
      rw [filterMap_chunkBytes_writes]
      simp [sum_filter_lengths]
    · rfl

/-- Witness for C9: in the concrete world `w1` (body chunks of sizes 3, 0 and
2), resolving `https://host/model.pt` writes exactly 5 bytes — the body
length — before yielding, and none after. -/
theorem claim_C9_full_body_written_witness :
    ((_get_model_file_path w1 "https://host/model.pt").result = .ok "tmp0.nequip.zip") ∧
    bytesWritten "tmp0.nequip.zip"
        (_get_model_file_path w1 "https://host/model.pt").preEvents = 5 ∧
    bytesWritten "tmp0.nequip.zip"
        (_get_model_file_path w1 "https://host/model.pt").postEvents = 0 :=
  ⟨rfl,
    (claim_C9_full_body_written w1 "https://host/model.pt" rfl rfl
      "tmp0.nequip.zip" rfl).1,
    (claim_C9_full_body_written w1 "https://host/model.pt" rfl rfl
      "tmp0.nequip.zip" rfl).2⟩

/-- Claim C10: `load_saved_model` returns the sub-model obtained by indexing
the loaded keyed collection with `model_key`; with `return_data_dict` set it
returns the pair of that model and the data dict extracted from the same
resolved file by the routine matching the file kind (package vs checkpoint),
and otherwise the model alone. -/
theorem claim_C10_result_selection {M D : Type} (w : World M D)
    (input compile_mode model_key : String) (p : String)
    (hres : (_get_model_file_path w input).result = .ok p)
    (hex : (_get_model_file_path w input).fs p = true) :
    (load_saved_model w input compile_mode model_key false).2 =
      .ok (.model
        ((if strEndsWith p ".nequip.zip" = true then w.ModelFromPackage p compile_mode
          else w.ModelFromCheckpoint p compile_mode) model_key)) ∧
    (load_saved_model w input compile_mode model_key true).2 =
      .ok (.modelAndData
        ((if strEndsWith p ".nequip.zip" = true then w.ModelFromPackage p compile_mode
          else w.ModelFromCheckpoint p compile_mode) model_key)
        (if strEndsWith p ".nequip.zip" = true then w.data_dict_from_package p
          else w.data_dict_from_checkpoint p)) := by
  cases hz : strEndsWith p ".nequip.zip" with
  | true =>
    rw [load_eq_pkg w input compile_mode model_key p hres hex hz,
      load_eq_pkg_data w input compile_mode model_key p hres hex hz]
    simp
  | false =>
    rw [load_eq_ckpt w input compile_mode model_key p hres hex hz,
      load_eq_ckpt_data w input compile_mode model_key p hres hex hz]
    simp

/-- Witness for C10: in the concrete world `w1`, loading the existing package
file `model.nequip.zip` yields the packaged sub-model (2) and, when
requested, the package data dict (22). -/
theorem claim_C10_result_selection_witness :
    ((_get_model_file_path w1 "model.nequip.zip").result = .ok "model.nequip.zip" ∧
      (_get_model_file_path w1 "model.nequip.zip").fs "model.nequip.zip" = true) ∧
    (load_saved_model w1 "model.nequip.zip" _EAGER_MODEL_KEY _SOLE_MODEL_KEY false).2 =
      .ok (.model 2) ∧
    (load_saved_model w1 "model.nequip.zip" _EAGER_MODEL_KEY _SOLE_MODEL_KEY true).2 =
      .ok (.modelAndData 2 22) :=
  ⟨⟨rfl, rfl⟩,
    (claim_C10_result_selection w1 "model.nequip.zip" _EAGER_MODEL_KEY _SOLE_MODEL_KEY
      "model.nequip.zip" rfl rfl).1,
    (claim_C10_result_selection w1 "model.nequip.zip" _EAGER_MODEL_KEY _SOLE_MODEL_KEY
      "model.nequip.zip" rfl rfl).2⟩

end NequIPLoad
